import Mathlib

/-!
Verification of the chat-relay core (session/event pipeline) against its
natural-language specification.

The development shallowly embeds the Python sources:
- `src/websocket/rate_limiter.py` (`RateLimiter`)
- `src/websocket/connection_manager.py` (`ConnectionManager`)
- `src/websocket/handler.py` (`parse_message_event`, the receive loop of
  `handle_websocket_connection`)
- `src/events/consumer.py` (`EventConsumer.handle_user_message`,
  `EventConsumer.handle_ai_response`)
- `src/database/chat_database.py` (`ChatDatabase.save_message`,
  `ChatDatabase.get_conversation_history`)
- `src/domain/models.py` (`Message`)

Wall-clock times are modelled as rationals, fallible Python calls as
`Except`, and Python dictionaries as association lists.  Formatted
user-facing message strings that interpolate numbers are modelled
structurally (the constructor keeps the interpolated numeric payload).
-/

namespace ChatRelay

/-- Python `int(q)` on a float/rational: truncation toward zero. -/
def pyTrunc (q : ℚ) : ℤ := if 0 ≤ q then ⌊q⌋ else -⌊-q⌋

/-! ## Rate limiter (src/websocket/rate_limiter.py) -/

/-- Constructor arguments of `RateLimiter.__init__`. -/
structure RLConfig where
  messagesPerWindow : ℕ
  windowSeconds : ℚ
  cooldownSeconds : ℚ

/-- One value of the per-user dict
`{"timestamps": [...], "blocked_until": float | None}`. -/
structure UserData where
  timestamps : List ℚ
  blockedUntil : Option ℚ
deriving DecidableEq, Repr

/-- The entry created for a user not tracked yet (lines 37-41). -/
def freshUser : UserData := ⟨[], none⟩

/-- The user-facing error strings of `is_rate_limited`, modelled
structurally with their interpolated numeric payload:
`tooMany r` is "Too many messages. Try again in {r} second(s)." and
`cooldownWait r` is "Rate limited. Try again in {r} second(s).". -/
inductive RLMessage
  | tooMany (retryAfter : ℚ)
  | cooldownWait (retryAfter : ℤ)
deriving DecidableEq, Repr

/-- Lines 55-68 of `is_rate_limited`: prune timestamps older than the
window, then either record the message or activate the cooldown. -/
def rlOpen (cfg : RLConfig) (ud : UserData) (now : ℚ) :
    (Bool × Option RLMessage) × UserData :=
  let kept := ud.timestamps.filter (fun ts => now - cfg.windowSeconds < ts)
  if kept.length < cfg.messagesPerWindow then
    ((false, none), ⟨kept ++ [now], none⟩)
  else
    ((true, some (.tooMany cfg.cooldownSeconds)), ⟨kept, some (now + cfg.cooldownSeconds)⟩)

/-- The per-user body of `RateLimiter.is_rate_limited` (lines 45-68):
cooldown check, then the windowed-count check. -/
def rlCheck (cfg : RLConfig) (ud : UserData) (now : ℚ) :
    (Bool × Option RLMessage) × UserData :=
  match ud.blockedUntil with
  | some bu =>
    if now < bu then
      ((true, some (.cooldownWait (pyTrunc (bu - now) + 1))), ud)
    else
      rlOpen cfg ⟨[], none⟩ now
  | none => rlOpen cfg ud now

/-- The `user_limits` dict, an insertion-ordered map from user id to state. -/
abbrev RLState := List (String × UserData)

/-- Assignment `self.user_limits[user_id] = ud`: replace the entry if the
key is present, append otherwise. -/
def setUser (st : RLState) (uid : String) (ud : UserData) : RLState :=
  if st.any (fun p => p.1 = uid) then
    st.map (fun p => if p.1 = uid then (uid, ud) else p)
  else
    st ++ [(uid, ud)]

/-- `RateLimiter.is_rate_limited(user_id)` at time `now`: initialize the
user if untracked, run the check, store the mutated user state. -/
def isRateLimited (cfg : RLConfig) (st : RLState) (uid : String) (now : ℚ) :
    (Bool × Option RLMessage) × RLState :=
  let ud := (st.lookup uid).getD freshUser
  let r := rlCheck cfg ud now
  (r.1, setUser st uid r.2)

/-- Result shape of `RateLimiter.get_user_stats`. -/
structure UserStats where
  messagesInWindow : ℕ
  limit : ℕ
  isBlocked : Bool
  blockedUntil : Option ℚ
deriving DecidableEq, Repr

/-- `RateLimiter.get_user_stats(user_id)` at time `now`; trims only a
local copy of the timestamps and mutates nothing. -/
def getUserStats (cfg : RLConfig) (st : RLState) (uid : String) (now : ℚ) : UserStats :=
  match st.lookup uid with
  | none => ⟨0, cfg.messagesPerWindow, false, none⟩
  | some ud =>
    let valid := ud.timestamps.filter (fun ts => now - cfg.windowSeconds < ts)
    let blocked := match ud.blockedUntil with
      | some bu => decide (now < bu)
      | none => false
    ⟨valid.length, cfg.messagesPerWindow, blocked, ud.blockedUntil⟩

/-- `RateLimiter.reset_user(user_id)`: clear the entry if present. -/
def resetUser (st : RLState) (uid : String) : RLState :=
  if st.any (fun p => p.1 = uid) then setUser st uid freshUser else st

/-- `max(timestamps)` if non-empty else `0` (lines 120-123). -/
def lastActivity (ud : UserData) : ℚ :=
  match ud.timestamps with
  | [] => 0
  | t :: ts => ts.foldl max t

/-- `RateLimiter.cleanup_old_entries(max_idle_seconds)` at time `now`:
drop users idle longer than `maxIdle`, return how many were dropped. -/
def cleanupOldEntries (st : RLState) (maxIdle : ℚ) (now : ℚ) : ℕ × RLState :=
  let keep := st.filter (fun p => ¬ maxIdle < now - lastActivity p.2)
  (st.countP (fun p => maxIdle < now - lastActivity p.2), keep)

/-- A call against the limiter's public mutating/reading surface. -/
inductive RLOp
  | check (uid : String) (now : ℚ)
  | stats (uid : String) (now : ℚ)
  | reset (uid : String)
  | cleanup (maxIdle : ℚ) (now : ℚ)

/-- The state left behind by one public call (`get_user_stats` reads a
snapshot and leaves the state untouched). -/
def applyOp (cfg : RLConfig) (st : RLState) : RLOp → RLState
  | .check uid now => (isRateLimited cfg st uid now).2
  | .stats _ _ => st
  | .reset uid => resetUser st uid
  | .cleanup m now => (cleanupOldEntries st m now).2

/-- Run a sequence of public calls from a given state. -/
def runOps (cfg : RLConfig) (st : RLState) (ops : List RLOp) : RLState :=
  ops.foldl (applyOp cfg) st

/-- Run `is_rate_limited` for one user at each time of a list in order,
collecting the returned pairs. -/
def runCalls (cfg : RLConfig) (uid : String) :
    RLState → List ℚ → List (Bool × Option RLMessage) × RLState
  | st, [] => ([], st)
  | st, t :: ts =>
    let r := isRateLimited cfg st uid t
    let rest := runCalls cfg uid r.2 ts
    (r.1 :: rest.1, rest.2)

/-- Every tracked user's timestamp list is at most `n` long. -/
def BoundedState (n : ℕ) (st : RLState) : Prop :=
  ∀ p ∈ st, p.2.timestamps.length ≤ n

/-! ## Session registry (src/websocket/connection_manager.py) -/

/-- A live output channel (one WebSocket), identified by a number. -/
abbrev Channel := ℕ

/-- Behaviour of `websocket.send_text` on each channel: success or a
raised exception with its message. -/
abbrev SendOracle := Channel → Except String Unit

/-- Whether a channel's send succeeds under the given oracle. -/
def sendOk (send : SendOracle) (c : Channel) : Bool :=
  match send c with
  | .ok _ => true
  | .error _ => false

/-- The delivery loop of `broadcast` (lines 32-37): one send attempt per
registered channel in registration order; a raising send is caught and
the channel is recorded in the `disconnected` list instead. Returns
(delivered channels, disconnected channels), both in attempt order. -/
def sweep (send : SendOracle) : List Channel → List Channel × List Channel
  | [] => ([], [])
  | c :: cs =>
    let rest := sweep send cs
    match send c with
    | .ok _ => (c :: rest.1, rest.2)
    | .error _ => (rest.1, c :: rest.2)

/-- `ConnectionManager.broadcast` over registry `conns`: run the sweep,
then remove each disconnected channel (`disconnect` = first-occurrence
removal, a no-op when absent, which is `List.erase`). Every per-channel
failure is caught inside the loop, so the function itself returns `.ok`
with (delivered channels, registry after cleanup). -/
def broadcast (conns : List Channel) (send : SendOracle) :
    Except String (List Channel × List Channel) :=
  let r := sweep send conns
  .ok (r.1, r.2.foldl List.erase conns)

/-! ## Structured frames and the session loop (src/websocket/handler.py) -/

/-- A parsed JSON value, as produced by `json.loads`. -/
inductive JVal
  | str (s : String)
  | num (n : ℤ)
  | bool (b : Bool)
  | null
  | arr (elems : List JVal)
  | obj (fields : List (String × JVal))

/-- `data.get(key, dflt)` on a parsed JSON object. -/
def jsonGet (fields : List (String × JVal)) (key : String) (dflt : JVal) : JVal :=
  (fields.lookup key).getD dflt

/-- Whether a JSON value is a string (Python `str`). -/
def isStrVal : JVal → Bool
  | .str _ => true
  | _ => false

/-- One inbound text frame: either a string `json.loads` rejects
(raising `JSONDecodeError`) or a parsed JSON value. -/
inductive Frame
  | notJson (raw : String)
  | json (v : JVal)

/-- Characters stripped by Python `str.strip()` (ASCII whitespace). -/
def pySpace (c : Char) : Bool :=
  c = ' ' ∨ c = '\t' ∨ c = '\n' ∨ c = '\r' ∨ c = '\x0b' ∨ c = '\x0c'

/-- Python `str.strip()` on a character list: drop whitespace from both
ends. -/
def pyStripList (l : List Char) : List Char :=
  ((l.dropWhile pySpace).reverse.dropWhile pySpace).reverse

/-- Python `str.strip()`. -/
def pyStrip (s : String) : String := ⟨pyStripList s.data⟩

/-- Python `str.startswith(pre)`. -/
def pyStartsWith (s pre : String) : Bool := pre.data.isPrefixOf s.data

/-- Python `str.replace(pat, "")` on character lists: scan left to
right, dropping each (non-overlapping) occurrence of `pat`. The fuel is
an upper bound on the scanned length; `pat.length ≥ 1` characters are
consumed whenever a match is dropped, so fuel `l.length` suffices. -/
def pyReplaceEmptyFuel (pat : List Char) : ℕ → List Char → List Char
  | _, [] => []
  | 0, l => l
  | fuel + 1, c :: cs =>
    if pat ≠ [] ∧ pat.isPrefixOf (c :: cs) then
      pyReplaceEmptyFuel pat fuel ((c :: cs).drop pat.length)
    else
      c :: pyReplaceEmptyFuel pat fuel cs

/-- Python `s.replace(pat, "")`. -/
def pyReplaceEmpty (s pat : String) : String :=
  ⟨pyReplaceEmptyFuel pat.data s.data.length s.data⟩

/-- Whether `pat` occurs as a contiguous sublist of `l`. -/
def occursIn (pat : List Char) : List Char → Bool
  | [] => pat.isPrefixOf []
  | c :: cs => pat.isPrefixOf (c :: cs) || occursIn pat cs

/-- The events built by `parse_message_event` (the `sender_ws` handle is
not modelled; it only ever flows through untouched). -/
inductive ParsedEvent
  | userMessage (user_id sender text : String)
  | aiRequest (user_id sender text : String)
deriving DecidableEq, Repr

/-- Lines 19-34 of `parse_message_event`, given the extracted `text`
string: the `/AIBot` prefix routes to an `AIRequestEvent` whose text is
`text.replace("/AIBot", "").strip()`; anything else becomes a
`UserMessageEvent` with the text unchanged. -/
def routeMessage (user_id sender text : String) : ParsedEvent :=
  if pyStartsWith text "/AIBot" then
    .aiRequest user_id sender (pyStrip (pyReplaceEmpty text "/AIBot"))
  else
    .userMessage user_id sender text

/-- `parse_message_event(websocket, user_id, sender, message)` on the
already-JSON-parsed `message`. `data.get("type", "message").strip()` and
`text.startswith(...)` raise `AttributeError` when the value is not a
string, and `data.get` raises when `data` is not a dict; those raises
are the `.error` results. -/
def parseMessageEvent (user_id sender : String) (v : JVal) : Except String ParsedEvent :=
  match v with
  | .obj fields =>
    match jsonGet fields "type" (.str "message") with
    | .str _ =>
      match jsonGet fields "text" (.str "") with
      | .str text => .ok (routeMessage user_id sender text)
      | _ => .error "AttributeError"
    | _ => .error "AttributeError"
  | _ => .error "AttributeError"

/-- Outbound payloads sent back to one session by the handler. -/
inductive Payload
  | connected (user_id username : String)
  | history (messages : List (String × String × String)) (count : ℕ)
  | errorMsg (message : String)
deriving DecidableEq, Repr

/-- Outcome of one iteration of the receive loop: either the loop
continues (with the events published and the payloads sent back during
the iteration), or an exception escaped the iteration's
`except json.JSONDecodeError` clause, so the outer handler tears the
session down. -/
inductive LoopStep
  | cont (published : List ParsedEvent) (replies : List Payload)
  | crashed
deriving DecidableEq, Repr

/-- The body of the receive loop of `handle_websocket_connection`
(lines 83-104): `json.loads` failure is answered with an
`{"type": "error", "message": "Invalid JSON format"}` payload and the
loop continues; an empty (stripped) text is skipped; otherwise
`process_message` publishes the parsed event. `.get` on a non-dict and
`.strip()` on a non-string raise `AttributeError`, which the clause
does not catch. Note the loop never consults the rate limiter. -/
def sessionLoopBody (user_id username : String) (frame : Frame) : LoopStep :=
  match frame with
  | .notJson _ => .cont [] [.errorMsg "Invalid JSON format"]
  | .json v =>
    match v with
    | .obj fields =>
      match jsonGet fields "text" (.str "") with
      | .str text =>
        if pyStrip text = "" then .cont [] []
        else
          match parseMessageEvent user_id username v with
          | .ok e => .cont [e] []
          | .error _ => .crashed
      | _ => .crashed
    | _ => .crashed

/-! ## Store adapter and domain model (src/database/chat_database.py,
src/domain/models.py) -/

/-- The `Message` dataclass of `src/domain/models.py`. Its fields are
exactly `sender_id`, `sender`, `text`, `msg_type`, `conversation_id`. -/
structure Message where
  sender_id : String
  sender : String
  text : String
  msg_type : String := "user_message"
  conversation_id : String := "default"
deriving DecidableEq, Repr

/-- Python attribute lookup on a `Message` instance: defined for the five
dataclass fields, `AttributeError` (`none`) for anything else. -/
def messageAttr (m : Message) : String → Option String
  | "sender_id" => some m.sender_id
  | "sender" => some m.sender
  | "text" => some m.text
  | "msg_type" => some m.msg_type
  | "conversation_id" => some m.conversation_id
  | _ => none

/-- One row of the `messages` table, in the column order of the INSERT. -/
structure MsgRow where
  conversation_id : String
  sender_id : String
  sender_name : String
  text : String
  message_type : String
deriving DecidableEq, Repr

/-- The `messages` table for one conversation ordering: rows in insertion
order (`created_at`/autoincrement id order). -/
abbrev MsgTable := List MsgRow

/-- `ChatDatabase.save_message(message)` (lines 139-151): the INSERT
reads `message.conversation_id`, `message.sender_id`,
`message.sender_name`, `message.text`, `message.msg_type` — via dynamic
attribute lookup, since `Message` declares no `sender_name` attribute. -/
def saveMessage (db : MsgTable) (m : Message) : Except String MsgTable :=
  match messageAttr m "conversation_id", messageAttr m "sender_id",
        messageAttr m "sender_name", messageAttr m "text",
        messageAttr m "msg_type" with
  | some cid, some sid, some sname, some txt, some mt =>
    .ok (db ++ [⟨cid, sid, sname, txt, mt⟩])
  | _, _, _, _, _ =>
    .error "AttributeError: 'Message' object has no attribute 'sender_name'"

/-- `ChatDatabase.get_conversation_history(conversation_id, limit)`:
rows of the conversation, oldest first, truncated at `limit`, projected
to `{sender, text, type, timestamp}` (timestamp not modelled — rows are
already in `created_at` order). -/
def getConversationHistory (db : MsgTable) (conversation_id : String) (limit : ℕ) :
    List (String × String × String) :=
  ((db.filter (fun r => r.conversation_id = conversation_id)).take limit).map
    (fun r => (r.sender_name, r.text, r.message_type))

/-- The methods `ChatDatabase` actually defines
(src/database/chat_database.py). -/
def chatDatabaseMethods : List String :=
  ["init", "close", "get_or_create_user", "add_user_to_conversation",
   "save_message", "get_conversation_history"]

/-- The connect phase of `handle_websocket_connection` (lines 45-80),
given the resolved `user_id` and the history the store would return:
reject an empty username before accepting; otherwise send the
`connected` acknowledgement, then call
`db.get_conversation_history_dict(...)` — a dynamic attribute lookup on
`ChatDatabase`. If the attribute is missing the `AttributeError`
propagates to the outer `except Exception`, which disconnects the
session. Returns the payloads sent and whether the session survived
into the receive loop. -/
def connectPhase (username user_id : String)
    (hist : List (String × String × String)) : List Payload × Bool :=
  if username = "" then ([], false)
  else if "get_conversation_history_dict" ∈ chatDatabaseMethods then
    ([.connected user_id username, .history hist hist.length], true)
  else
    ([.connected user_id username], false)

/-! ## Event-pipeline handlers (src/events/consumer.py) -/

/-- The fields `handle_user_message` reads from its event dict (with the
`.get` defaults); `hasSenderWs` is whether `event.get("sender_ws")` is
truthy. -/
structure UserMessageEventDict where
  user_id : String := ""
  sender : String := ""
  text : String := ""
  hasSenderWs : Bool := false

/-- A delivery instruction issued to the connection manager. -/
inductive Delivery
  | broadcastAll (sender text : String)
  | broadcastExcept (sender text : String)
deriving DecidableEq, Repr

/-- `EventConsumer.handle_user_message` (lines 35-62), with the outcome
of the `save_message` call supplied as an oracle. The save is not
wrapped in try/except: a raising save propagates out of the handler
(`.error`) before the broadcast step runs. -/
def handleUserMessage (saveResult : Except String Unit)
    (e : UserMessageEventDict) : Except String (List Delivery) :=
  let deliver : Delivery :=
    if e.hasSenderWs then .broadcastExcept e.sender e.text
    else .broadcastAll e.sender e.text
  if e.user_id ≠ "" ∧ e.sender ≠ "" then
    match saveResult with
    | .ok _ => .ok [deliver]
    | .error err => .error err
  else
    .ok [deliver]

/-- `EventConsumer.handle_ai_response` (lines 64-87), with the outcome
of the `get_or_create_user`/`save_message` block supplied as an oracle.
That block is wrapped in `try/except Exception`, which logs and falls
through, so the broadcast step runs either way. -/
def handleAIResponse (saveResult : Except String Unit)
    (text : String) : Except String (List Delivery) :=
  match saveResult with
  | .ok _ => .ok [.broadcastAll "AIBot" text]
  | .error _ => .ok [.broadcastAll "AIBot" text]

/-! ## Theorems -/

/-- C8: the claimed round-trip of the history store fails at the first
step: `ChatDatabase.save_message` reads `message.sender_name`, an
attribute the `Message` dataclass does not declare (its field is
`sender`, as the unit tests also assert), so every save raises
`AttributeError` and nothing is ever persisted. -/
theorem save_message_always_raises (db : MsgTable) (m : Message) :
    saveMessage db m =
      .error "AttributeError: 'Message' object has no attribute 'sender_name'" ∧
    messageAttr m "sender_name" = none ∧ messageAttr m "sender" = some m.sender :=
  ⟨rfl, rfl, rfl⟩

/-- C4: a raising persistence step is not caught in
`EventConsumer.handle_user_message` — the exception propagates and the
broadcast step never runs — although the same failure in
`EventConsumer.handle_ai_response` is caught and the broadcast still
happens, contradicting the claim that both handlers recover. -/
theorem user_message_save_failure_skips_broadcast :
    handleUserMessage (.error "DB error")
        { user_id := "user_1", sender := "Alice", text := "hi" } = .error "DB error" ∧
    handleAIResponse (.error "DB error") "hi" = .ok [.broadcastAll "AIBot" "hi"] :=
  ⟨rfl, rfl⟩

/-- C6: after the connection acknowledgement the handler calls
`db.get_conversation_history_dict`, a method `ChatDatabase` does not
define; the resulting `AttributeError` reaches the outer
`except Exception` and the session dies having sent only the
`connected` payload — the `history` payload is never sent. -/
theorem connect_phase_never_sends_history :
    connectPhase "alice" "u1" [("bob", "hello", "user_message")] =
      ([.connected "u1" "alice"], false) ∧
    "get_conversation_history_dict" ∉ chatDatabaseMethods :=
  ⟨rfl, by decide⟩

/-- C2: the receive loop of `handle_websocket_connection` never consults
the rate limiter: with a state in which `is_rate_limited` reports user
`u1` as limited, the loop body still publishes the parsed event for a
non-empty frame from `u1` and sends back no rate-limit error. -/
theorem session_loop_skips_rate_limiter :
    (isRateLimited ⟨3, 1, 2⟩ [("u1", ⟨[], some 100⟩)] "u1" 0).1 =
      (true, some (.cooldownWait 101)) ∧
    sessionLoopBody "u1" "alice" (.json (.obj [("text", .str "hello")])) =
      .cont [.userMessage "u1" "alice" "hello"] [] := by
  constructor
  · norm_num [isRateLimited, rlCheck, pyTrunc, List.lookup]
  · rfl

/-- C5 counterexample: the frame `5` is valid JSON but not a dict, so
`msg_data.get` raises `AttributeError`, which the loop's
`except json.JSONDecodeError` clause does not catch: the session is
torn down instead of receiving the structured error payload the claim
promises for every malformed frame. -/
theorem malformed_nondict_frame_crashes :
    sessionLoopBody "u1" "alice" (.json (.num 5)) = .crashed ∧
    LoopStep.crashed ≠ .cont [] [.errorMsg "Invalid JSON format"] :=
  ⟨rfl, by decide⟩

/-- C5 (amended): for every inbound frame that is not valid JSON
(`json.loads` raises `JSONDecodeError`), the handler replies to the
same session with the structured payload `error`/"Invalid JSON format",
publishes nothing and continues the loop without closing the
connection. -/
theorem invalid_json_frame_recovers (user_id username raw : String) :
    sessionLoopBody user_id username (.notJson raw) =
      .cont [] [.errorMsg "Invalid JSON format"] := rfl

/-- C7 counterexample: a user blocked until time 1 and checked at time
1/2 gets retry-after `int(1/2) + 1 = 1`, not the claimed
`ceil(1/2) + 1 = 2`. -/
theorem blocked_retry_after_counterexample :
    rlCheck ⟨3, 1, 2⟩ ⟨[], some 1⟩ (1 / 2) =
      ((true, some (.cooldownWait 1)), ⟨[], some 1⟩) ∧
    (⌈(1 : ℚ) - 1 / 2⌉ + 1 : ℤ) = 2 ∧ (1 : ℤ) ≠ 2 := by
  refine ⟨by norm_num [rlCheck, pyTrunc], ?_, by decide⟩
  rw [show (⌈(1 : ℚ) - 1 / 2⌉ : ℤ) = 1 from Int.ceil_eq_iff.mpr (by norm_num)]
  norm_num

/-- C7 (amended): while a user is blocked (`now < blocked_until`), the
check denies and reports retry-after `int(blocked_until - now) + 1`,
i.e. `floor(blocked_until - now) + 1` since the difference is positive;
this agrees with the claimed `ceil(blocked_until - now) + 1` only when
the difference is an exact integer, and equals
`ceil(blocked_until - now)` otherwise. The user's state is unchanged. -/
theorem blocked_retry_after_truncates (cfg : RLConfig) (ud : UserData) (bu now : ℚ)
    (hbu : ud.blockedUntil = some bu) (hlt : now < bu) :
    rlCheck cfg ud now = ((true, some (.cooldownWait (⌊bu - now⌋ + 1))), ud) ∧
    ((¬ ∃ z : ℤ, bu - now = (z : ℚ)) → (⌊bu - now⌋ + 1 : ℤ) = ⌈bu - now⌉) := by
  obtain ⟨ts, b⟩ := ud
  simp only at hbu
  subst hbu
  constructor
  · simp only [rlCheck, if_pos hlt, pyTrunc, if_pos (sub_nonneg.mpr hlt.le)]
  · intro hni
    have h1 : (⌊bu - now⌋ : ℚ) < bu - now := by
      rcases lt_or_eq_of_le (Int.floor_le (bu - now)) with h | h
      · exact h
      · exact absurd ⟨⌊bu - now⌋, h.symm⟩ hni
    have h2 : ⌈bu - now⌉ ≤ ⌊bu - now⌋ + 1 :=
      Int.ceil_le.mpr (by exact_mod_cast (Int.lt_floor_add_one (bu - now)).le)
    have h3 : ⌊bu - now⌋ < ⌈bu - now⌉ := by
      have hc := Int.le_ceil (bu - now)
      exact_mod_cast h1.trans_le hc
    omega

/-- Witness for the amended C7 theorem at blocked-until 1, checked at
time 1/2. -/
theorem blocked_retry_after_truncates_witness :
    ((UserData.mk [] (some 1)).blockedUntil = some 1 ∧ (1 : ℚ) / 2 < 1) ∧
    (rlCheck ⟨3, 1, 2⟩ ⟨[], some 1⟩ (1 / 2) =
        ((true, some (.cooldownWait (⌊(1 : ℚ) - 1 / 2⌋ + 1))), ⟨[], some 1⟩) ∧
      ((¬ ∃ z : ℤ, (1 : ℚ) - 1 / 2 = (z : ℚ)) →
        (⌊(1 : ℚ) - 1 / 2⌋ + 1 : ℤ) = ⌈(1 : ℚ) - 1 / 2⌉)) :=
  ⟨⟨rfl, by norm_num⟩,
    blocked_retry_after_truncates ⟨3, 1, 2⟩ ⟨[], some 1⟩ 1 (1 / 2) rfl (by norm_num)⟩

/-- `rlOpen` never grows a user's window beyond the threshold. -/
theorem rlOpen_bounded (cfg : RLConfig) (ud : UserData) (now : ℚ)
    (h : ud.timestamps.length ≤ cfg.messagesPerWindow) :
    ((rlOpen cfg ud now).2).timestamps.length ≤ cfg.messagesPerWindow := by
  dsimp only [rlOpen]
  split
  · next hlt =>
    simp only [List.length_append, List.length_singleton]
    omega
  · exact le_trans (List.length_filter_le _ _) h

/-- `rlCheck` never grows a user's window beyond the threshold. -/
theorem rlCheck_bounded (cfg : RLConfig) (ud : UserData) (now : ℚ)
    (h : ud.timestamps.length ≤ cfg.messagesPerWindow) :
    ((rlCheck cfg ud now).2).timestamps.length ≤ cfg.messagesPerWindow := by
  obtain ⟨ts, b⟩ := ud
  cases b with
  | none => exact rlOpen_bounded cfg ⟨ts, none⟩ now h
  | some bu =>
    dsimp only [rlCheck]
    split
    · exact h
    · exact rlOpen_bounded cfg ⟨[], none⟩ now (Nat.zero_le _)

/-- `setUser` preserves the window bound. -/
theorem setUser_bounded {n : ℕ} {st : RLState} {uid : String} {ud : UserData}
    (hst : BoundedState n st) (hud : ud.timestamps.length ≤ n) :
    BoundedState n (setUser st uid ud) := by
  unfold setUser
  split
  · intro p hp
    rcases List.mem_map.mp hp with ⟨q, hq, rfl⟩
    split
    · exact hud
    · exact hst q hq
  · intro p hp
    rcases List.mem_append.mp hp with h | h
    · exact hst p h
    · simp only [List.mem_singleton] at h
      subst h
      exact hud

/-- A successful association-list lookup comes from an entry of the
list. -/
theorem lookup_mem {st : RLState} {uid : String} {ud : UserData}
    (h : st.lookup uid = some ud) : ∃ k, (k, ud) ∈ st := by
  induction st with
  | nil => cases h
  | cons p st ih =>
    obtain ⟨k, b⟩ := p
    simp only [List.lookup] at h
    cases hbe : (uid == k) with
    | true =>
      rw [hbe] at h
      simp only [Option.some.injEq] at h
      subst h
      exact ⟨k, List.mem_cons_self _ _⟩
    | false =>
      rw [hbe] at h
      obtain ⟨k', hm⟩ := ih h
      exact ⟨k', List.mem_cons_of_mem _ hm⟩

/-- Each public limiter call preserves the window bound. -/
theorem applyOp_bounded (cfg : RLConfig) (st : RLState) (op : RLOp)
    (hst : BoundedState cfg.messagesPerWindow st) :
    BoundedState cfg.messagesPerWindow (applyOp cfg st op) := by
  cases op with
  | check uid now =>
    dsimp only [applyOp, isRateLimited]
    apply setUser_bounded hst
    apply rlCheck_bounded
    cases hl : st.lookup uid with
    | none => exact Nat.zero_le _
    | some ud =>
      obtain ⟨k, hk⟩ := lookup_mem hl
      simpa using hst (k, ud) hk
  | stats uid now => exact hst
  | reset uid =>
    dsimp only [applyOp, resetUser]
    split
    · exact setUser_bounded hst (Nat.zero_le _)
    · exact hst
  | cleanup m now =>
    intro p hp
    exact hst p (List.mem_of_mem_filter hp)

/-- Sequences of public calls preserve the window bound. -/
theorem runOps_bounded (cfg : RLConfig) (ops : List RLOp) (st : RLState)
    (hst : BoundedState cfg.messagesPerWindow st) :
    BoundedState cfg.messagesPerWindow (runOps cfg st ops) := by
  induction ops generalizing st with
  | nil => exact hst
  | cons op ops ih => exact ih _ (applyOp_bounded cfg st op hst)

/-- C10: starting from a freshly constructed limiter, after any sequence
of `is_rate_limited`, `get_user_stats`, `reset_user` and
`cleanup_old_entries` calls, every tracked user's timestamp list has at
most `messages_per_window` entries. -/
theorem rate_limiter_window_bounded (cfg : RLConfig) (ops : List RLOp) :
    BoundedState cfg.messagesPerWindow (runOps cfg [] ops) :=
  runOps_bounded cfg ops [] (by intro p hp; cases hp)

/-- Witness for the window-bound invariant on a concrete call
sequence. -/
theorem rate_limiter_window_bounded_witness :
    BoundedState 3 (runOps ⟨3, 1, 2⟩ []
      [.check "u" 0, .check "u" 0, .check "u" 1, .check "u" 1,
       .stats "u" 2, .reset "v", .check "v" 2, .cleanup 10 5]) :=
  rate_limiter_window_bounded ⟨3, 1, 2⟩ _

/-- The delivery loop splits the registry into the channels whose send
succeeded and those whose send raised, each in registration order. -/
theorem sweep_eq (send : SendOracle) (conns : List Channel) :
    sweep send conns =
      (conns.filter (sendOk send), conns.filter (fun c => !(sendOk send c))) := by
  induction conns with
  | nil => rfl
  | cons c cs ih =>
    simp only [sweep, ih]
    cases hsc : send c with
    | ok u => simp [List.filter_cons, sendOk, hsc]
    | error e => simp [List.filter_cons, sendOk, hsc]

/-- C3: `broadcast` returns normally (`.ok`) for every send oracle; it
delivers to exactly the channels whose send does not raise, in
registration order; after the sweep completes, the raising channels and
only they are removed, so each surviving non-raising channel was
delivered to exactly once and every raising channel is gone from the
registry. -/
theorem broadcast_failure_isolation (conns : List Channel) (send : SendOracle)
    (hnd : conns.Nodup) :
    broadcast conns send =
      .ok (conns.filter (sendOk send), conns.filter (sendOk send)) ∧
    (∀ c ∈ conns, sendOk send c = true →
      (conns.filter (sendOk send)).count c = 1) ∧
    (∀ c ∈ conns, sendOk send c = false → c ∉ conns.filter (sendOk send)) := by
  refine ⟨?_, ?_, ?_⟩
  · unfold broadcast
    rw [sweep_eq]
    dsimp only
    have hdiff :
        (conns.filter (fun c => !(sendOk send c))).foldl List.erase conns =
          conns.diff (conns.filter (fun c => !(sendOk send c))) :=
      (List.diff_eq_foldl _ _).symm
    rw [hdiff, List.Nodup.diff_eq_filter hnd]
    congr 1
    congr 1
    apply List.filter_congr
    intro a ha
    by_cases h : sendOk send a = true
    · simp [List.mem_filter, h]
    · simp [List.mem_filter, ha, h]
  · intro c hc hok
    rw [List.count_filter hok]
    exact List.count_eq_one_of_mem hnd hc
  · intro c _ hfail
    simp [List.mem_filter, hfail]

/-- Witness for `broadcast` over registry `[1, 2, 3]` where sending to
channel 2 raises. -/
theorem broadcast_failure_isolation_witness :
    ([1, 2, 3] : List Channel).Nodup ∧
    (broadcast [1, 2, 3] (fun c => if c = 2 then .error "boom" else .ok ()) =
        .ok ([1, 2, 3].filter (sendOk fun c => if c = 2 then .error "boom" else .ok ()),
             [1, 2, 3].filter (sendOk fun c => if c = 2 then .error "boom" else .ok ())) ∧
      (∀ c ∈ ([1, 2, 3] : List Channel),
        sendOk (fun c => if c = 2 then .error "boom" else .ok ()) c = true →
        ([1, 2, 3].filter (sendOk fun c => if c = 2 then .error "boom" else .ok ())).count c = 1) ∧
      (∀ c ∈ ([1, 2, 3] : List Channel),
        sendOk (fun c => if c = 2 then .error "boom" else .ok ()) c = false →
        c ∉ [1, 2, 3].filter (sendOk fun c => if c = 2 then .error "boom" else .ok ()))) :=
  ⟨by decide,
    broadcast_failure_isolation [1, 2, 3]
      (fun c => if c = 2 then .error "boom" else .ok ()) (by decide)⟩

/-- A pattern that does not occur in the text is never removed. -/
theorem pyReplaceEmptyFuel_no_occur (pat : List Char) :
    ∀ (l : List Char) (fuel : ℕ), l.length ≤ fuel → occursIn pat l = false →
      pyReplaceEmptyFuel pat fuel l = l := by
  intro l
  induction l with
  | nil => intro fuel _ _; cases fuel <;> rfl
  | cons c cs ih =>
    intro fuel hf hno
    simp only [occursIn, Bool.or_eq_false_iff] at hno
    obtain ⟨f, rfl⟩ : ∃ f, fuel = f + 1 := by
      cases fuel
      · simp at hf
      · exact ⟨_, rfl⟩
    simp only [pyReplaceEmptyFuel]
    rw [if_neg (by simp [hno.1])]
    rw [ih f (by simp at hf; omega) hno.2]

/-- Removing a pattern from `pat ++ rest` when it does not occur in
`rest` leaves exactly `rest`. -/
theorem pyReplaceEmptyFuel_drop_prefix (pat rest : List Char) (fuel : ℕ)
    (hpne : pat ≠ []) (hf : (pat ++ rest).length ≤ fuel)
    (hno : occursIn pat rest = false) :
    pyReplaceEmptyFuel pat fuel (pat ++ rest) = rest := by
  obtain ⟨p, ps, rfl⟩ : ∃ p ps, pat = p :: ps := by
    cases pat with
    | nil => exact absurd rfl hpne
    | cons p ps => exact ⟨p, ps, rfl⟩
  obtain ⟨f, rfl⟩ : ∃ f, fuel = f + 1 := by
    cases fuel
    · simp at hf
    · exact ⟨_, rfl⟩
  have hpre : (p :: ps).isPrefixOf (p :: (ps ++ rest)) = true :=
    List.isPrefixOf_iff_prefix.mpr (List.prefix_append (p :: ps) rest)
  show pyReplaceEmptyFuel (p :: ps) (f + 1) (p :: (ps ++ rest)) = rest
  simp only [pyReplaceEmptyFuel]
  rw [if_pos ⟨hpne, hpre⟩]
  have hdrop : (p :: (ps ++ rest)).drop (p :: ps).length = rest := by
    rw [List.length_cons, List.drop_succ_cons, List.drop_left]
  rw [hdrop]
  exact pyReplaceEmptyFuel_no_occur (p :: ps) rest f (by simp at hf; omega) hno

/-- C9 counterexample: for the text "/AIBot hi /AIBot" the code removes
every occurrence of the marker (Python `str.replace` replaces all
non-overlapping occurrences) and yields event text "hi", not the
"hi /AIBot" that removing only the single leading marker would give. -/
theorem marker_removal_counterexample :
    routeMessage "u1" "alice" "/AIBot hi /AIBot" = .aiRequest "u1" "alice" "hi" ∧
    "hi" ≠ "hi /AIBot" := ⟨rfl, by decide⟩

/-- C9 (amended): a text beginning with the marker "/AIBot" routes to an
`AIRequestEvent` whose text is the original with every (left-to-right,
non-overlapping) occurrence of the marker removed and the result
trimmed of surrounding whitespace — which coincides with removing the
single leading marker whenever the marker does not reoccur after it —
while any text not beginning with the marker yields a
`UserMessageEvent` with the text unchanged. -/
theorem route_message_marker_semantics (user_id sender text rest : String) :
    (pyStartsWith text "/AIBot" = true →
      routeMessage user_id sender text =
        .aiRequest user_id sender (pyStrip (pyReplaceEmpty text "/AIBot"))) ∧
    (pyStartsWith text "/AIBot" = false →
      routeMessage user_id sender text = .userMessage user_id sender text) ∧
    (occursIn "/AIBot".data rest.data = false →
      routeMessage user_id sender ("/AIBot" ++ rest) =
        .aiRequest user_id sender (pyStrip rest)) := by
  refine ⟨?_, ?_, ?_⟩
  · intro h
    simp [routeMessage, h]
  · intro h
    simp [routeMessage, h]
  · intro hno
    have hpre : pyStartsWith ("/AIBot" ++ rest) "/AIBot" = true := by
      unfold pyStartsWith
      rw [String.data_append]
      exact List.isPrefixOf_iff_prefix.mpr (List.prefix_append _ _)
    have hrep : pyReplaceEmpty ("/AIBot" ++ rest) "/AIBot" = rest := by
      unfold pyReplaceEmpty
      rw [String.data_append,
        pyReplaceEmptyFuel_drop_prefix "/AIBot".data rest.data _ (by decide)
          (le_refl _) hno]
    simp [routeMessage, hpre, hrep]

/-- Witness for the amended C9 theorem on both routing branches and on a
text where the marker occurs only as the leading prefix. -/
theorem route_message_marker_semantics_witness :
    (pyStartsWith "/AIBot tell me" "/AIBot" = true ∧
      pyStartsWith "hello" "/AIBot" = false ∧
      occursIn "/AIBot".data " tell me".data = false) ∧
    (routeMessage "u1" "alice" "/AIBot tell me" =
        .aiRequest "u1" "alice" (pyStrip (pyReplaceEmpty "/AIBot tell me" "/AIBot")) ∧
      routeMessage "u1" "alice" "hello" = .userMessage "u1" "alice" "hello" ∧
      routeMessage "u1" "alice" ("/AIBot" ++ " tell me") =
        .aiRequest "u1" "alice" (pyStrip " tell me")) :=
  ⟨⟨rfl, rfl, rfl⟩,
    (route_message_marker_semantics "u1" "alice" "/AIBot tell me" " tell me").1 rfl,
    (route_message_marker_semantics "u1" "alice" "hello" " tell me").2.1 rfl,
    (route_message_marker_semantics "u1" "alice" "any" " tell me").2.2 rfl⟩

/-- `is_rate_limited` on an untracked user initializes it and stores the
checked state. -/
theorem isRateLimited_nil (cfg : RLConfig) (uid : String) (now : ℚ) :
    isRateLimited cfg [] uid now =
      ((rlCheck cfg freshUser now).1, [(uid, (rlCheck cfg freshUser now).2)]) := rfl

/-- `is_rate_limited` on a single-user map, queried for that user. -/
theorem isRateLimited_single (cfg : RLConfig) (uid : String) (ud : UserData) (now : ℚ) :
    isRateLimited cfg [(uid, ud)] uid now =
      ((rlCheck cfg ud now).1, [(uid, (rlCheck cfg ud now).2)]) := by
  unfold isRateLimited setUser
  simp [List.lookup]

/-- Splitting a call sequence. -/
theorem runCalls_append (cfg : RLConfig) (uid : String) (st : RLState)
    (l₁ l₂ : List ℚ) :
    runCalls cfg uid st (l₁ ++ l₂) =
      ((runCalls cfg uid st l₁).1 ++
          (runCalls cfg uid (runCalls cfg uid st l₁).2 l₂).1,
        (runCalls cfg uid (runCalls cfg uid st l₁).2 l₂).2) := by
  induction l₁ generalizing st with
  | nil => simp [runCalls]
  | cons t ts ih => simp [runCalls, ih]

/-- While the window stays under the threshold and all calls fall within
one window span, every call is allowed and every timestamp is kept. -/
theorem runCalls_allowed (cfg : RLConfig) (uid : String) (rest : List ℚ) :
    ∀ acc : List ℚ,
      acc.length + rest.length ≤ cfg.messagesPerWindow →
      (∀ a ∈ acc ++ rest, ∀ b ∈ acc ++ rest, b - a < cfg.windowSeconds) →
      runCalls cfg uid [(uid, ⟨acc, none⟩)] rest =
        (List.replicate rest.length (false, none), [(uid, ⟨acc ++ rest, none⟩)]) := by
  induction rest with
  | nil =>
    intro acc _ _
    simp [runCalls]
  | cons t ts ih =>
    intro acc hlen hspan
    have hkeep : ∀ a ∈ acc, decide (t - cfg.windowSeconds < a) = true := by
      intro a ha
      have h := hspan a (by simp [ha]) t (by simp)
      simp only [decide_eq_true_eq]
      linarith
    have hfilter : acc.filter (fun a => decide (t - cfg.windowSeconds < a)) = acc :=
      List.filter_eq_self.mpr hkeep
    have hlt : acc.length < cfg.messagesPerWindow := by
      simp only [List.length_cons] at hlen
      omega
    have hcheck : rlCheck cfg ⟨acc, none⟩ t = ((false, none), ⟨acc ++ [t], none⟩) := by
      simp only [rlCheck, rlOpen, hfilter]
      rw [if_pos hlt]
    have hstep : isRateLimited cfg [(uid, ⟨acc, none⟩)] uid t =
        ((false, none), [(uid, ⟨acc ++ [t], none⟩)]) := by
      rw [isRateLimited_single, hcheck]
    simp only [runCalls, hstep]
    rw [ih (acc ++ [t]) (by simp only [List.length_append, List.length_cons,
      List.length_nil] at hlen ⊢; omega)
      (by simpa [List.append_assoc] using hspan)]
    simp [List.replicate_succ, List.append_assoc]

/-- From no prior state, calls under the threshold within one window are
all allowed and accumulate in order. -/
theorem runCalls_fresh (cfg : RLConfig) (uid : String) (l : List ℚ)
    (hne : l ≠ [])
    (hlen : l.length ≤ cfg.messagesPerWindow)
    (hspan : ∀ a ∈ l, ∀ b ∈ l, b - a < cfg.windowSeconds) :
    runCalls cfg uid [] l =
      (List.replicate l.length (false, none), [(uid, ⟨l, none⟩)]) := by
  obtain ⟨a, l', rfl⟩ : ∃ a l', l = a :: l' := by
    cases l with
    | nil => exact absurd rfl hne
    | cons a l' => exact ⟨a, l', rfl⟩
  have hN : 0 < cfg.messagesPerWindow := by
    simp only [List.length_cons] at hlen
    omega
  have hcheck : rlCheck cfg freshUser a = ((false, none), ⟨[a], none⟩) := by
    simp only [rlCheck, freshUser, rlOpen, List.filter_nil]
    rw [if_pos (by simpa using hN)]
    rfl
  have hstep : isRateLimited cfg [] uid a = ((false, none), [(uid, ⟨[a], none⟩)]) := by
    rw [isRateLimited_nil, hcheck]
  simp only [runCalls, hstep]
  rw [runCalls_allowed cfg uid l' [a]
    (by simp only [List.length_cons, List.length_nil] at hlen ⊢; omega)
    (by simpa using hspan)]
  simp [List.replicate_succ]

/-- C1: with threshold `N > 0`, window `W` and cooldown `C`, for a user
with no prior state: the first `N` calls, all within one span of `W`,
each return (not-limited, no message); the `(N+1)`-th call within the
same window returns limited with the "Too many messages" message and
stores `blocked_until = now + C`; and the first call at a time at or
after `blocked_until` returns (not-limited, no message), clears
`blocked_until` and leaves that call's timestamp as the sole entry of a
fresh window. -/
theorem rate_limiter_scenario (cfg : RLConfig) (uid : String) (l : List ℚ) (t t' : ℚ)
    (hN : 0 < cfg.messagesPerWindow)
    (hlen : l.length = cfg.messagesPerWindow)
    (hspan : ∀ a ∈ l ++ [t], ∀ b ∈ l ++ [t], b - a < cfg.windowSeconds)
    (hcool : t + cfg.cooldownSeconds ≤ t') :
    runCalls cfg uid [] (l ++ [t]) =
      (List.replicate cfg.messagesPerWindow (false, none) ++
          [(true, some (.tooMany cfg.cooldownSeconds))],
        [(uid, ⟨l, some (t + cfg.cooldownSeconds)⟩)]) ∧
    runCalls cfg uid [] (l ++ [t] ++ [t']) =
      (List.replicate cfg.messagesPerWindow (false, none) ++
          [(true, some (.tooMany cfg.cooldownSeconds)), (false, none)],
        [(uid, ⟨[t'], none⟩)]) := by
  have hne : l ≠ [] := by
    intro h
    rw [h] at hlen
    simp at hlen
    omega
  have hfresh := runCalls_fresh cfg uid l hne hlen.le
    (fun a ha b hb => hspan a (by simp [ha]) b (by simp [hb]))
  have hfilterl : l.filter (fun x => decide (t - cfg.windowSeconds < x)) = l := by
    apply List.filter_eq_self.mpr
    intro a ha
    have h := hspan a (by simp [ha]) t (by simp)
    simp only [decide_eq_true_eq]
    linarith
  have hcheckt : rlCheck cfg ⟨l, none⟩ t =
      ((true, some (.tooMany cfg.cooldownSeconds)),
        ⟨l, some (t + cfg.cooldownSeconds)⟩) := by
    simp only [rlCheck, rlOpen, hfilterl]
    rw [if_neg (by omega)]
  have hone : runCalls cfg uid [(uid, ⟨l, none⟩)] [t] =
      ([(true, some (.tooMany cfg.cooldownSeconds))],
        [(uid, ⟨l, some (t + cfg.cooldownSeconds)⟩)]) := by
    simp only [runCalls, isRateLimited_single, hcheckt]
  have hphase1 : runCalls cfg uid [] (l ++ [t]) =
      (List.replicate cfg.messagesPerWindow (false, none) ++
          [(true, some (.tooMany cfg.cooldownSeconds))],
        [(uid, ⟨l, some (t + cfg.cooldownSeconds)⟩)]) := by
    rw [runCalls_append, hfresh]
    dsimp only
    rw [hone, hlen]
  refine ⟨hphase1, ?_⟩
  have hcheckt' : rlCheck cfg ⟨l, some (t + cfg.cooldownSeconds)⟩ t' =
      ((false, none), ⟨[t'], none⟩) := by
    simp only [rlCheck]
    rw [if_neg (not_lt.mpr hcool)]
    simp only [rlOpen, List.filter_nil]
    rw [if_pos (by simpa using hN)]
    rfl
  have hone' : runCalls cfg uid [(uid, ⟨l, some (t + cfg.cooldownSeconds)⟩)] [t'] =
      ([(false, none)], [(uid, ⟨[t'], none⟩)]) := by
    simp only [runCalls, isRateLimited_single, hcheckt']
  rw [runCalls_append, hphase1]
  dsimp only
  rw [hone']
  simp [List.append_assoc]

/-- Witness for the full rate-limit scenario at the numeric defaults
`N = 3`, `W = 1`, `C = 2`: three calls at times 0, 1/4, 1/2 allowed, a
fourth at 3/4 blocked with the "Too many messages" message and
`blocked_until = 3/4 + 2`, and a fifth at time 3 allowed again on a
fresh window. -/
theorem rate_limiter_scenario_witness :
    (0 < 3 ∧ ([0, 1/4, 1/2] : List ℚ).length = 3 ∧
      (∀ a ∈ ([0, 1/4, 1/2] : List ℚ) ++ [3/4],
        ∀ b ∈ ([0, 1/4, 1/2] : List ℚ) ++ [3/4], b - a < 1) ∧
      (3 : ℚ) / 4 + 2 ≤ 3) ∧
    (runCalls ⟨3, 1, 2⟩ "user_1" [] (([0, 1/4, 1/2] : List ℚ) ++ [3/4]) =
        (List.replicate 3 (false, none) ++ [(true, some (.tooMany 2))],
          [("user_1", ⟨[0, 1/4, 1/2], some ((3 : ℚ)/4 + 2)⟩)]) ∧
      runCalls ⟨3, 1, 2⟩ "user_1" [] (([0, 1/4, 1/2] : List ℚ) ++ [3/4] ++ [3]) =
        (List.replicate 3 (false, none) ++ [(true, some (.tooMany 2)), (false, none)],
          [("user_1", ⟨[3], none⟩)])) :=
  ⟨⟨by norm_num, rfl,
    by
      intro a ha b hb
      simp only [List.mem_append, List.mem_cons, List.mem_singleton,
        List.not_mem_nil, or_false] at ha hb
      rcases ha with (rfl | rfl | rfl) | rfl <;> rcases hb with (rfl | rfl | rfl) | rfl <;>
        norm_num,
    by norm_num⟩,
    rate_limiter_scenario ⟨3, 1, 2⟩ "user_1" [0, 1/4, 1/2] (3/4) 3 (by norm_num) rfl
      (by
        intro a ha b hb
        simp only [List.mem_append, List.mem_cons, List.mem_singleton,
          List.not_mem_nil, or_false] at ha hb
        rcases ha with (rfl | rfl | rfl) | rfl <;> rcases hb with (rfl | rfl | rfl) | rfl <;>
          norm_num)
      (by norm_num)⟩

end ChatRelay
